import Mathlib

/-!
Verification of the task-execution engine of the `wincleaner` repository
(`src/main.rs`). Rust strings are modelled as Lean `String` (a list of
characters), `std::env::var` as a function `String → Option String`, the
filesystem and the subprocess as oracle records, and `u64`/`usize`
quantities as `Nat`. The `f64` arithmetic in `format_size` divides only by
1024 and is modelled exactly with `ℚ`; the one-decimal rounding of the
Rust fixed-precision float formatting is modelled as round-half-to-even.
-/

/-! ## String primitives (Rust `str::contains` and `str::replace`) -/

/-- Decides whether `pat` occurs as a contiguous substring, mirroring Rust
`str::contains` with a string pattern. -/
def substrAux (pat : List Char) : List Char → Bool
  | [] => pat.isEmpty
  | c :: cs => pat.isPrefixOf (c :: cs) || substrAux pat cs

/-- Model of Rust `s.contains(pat)`: `containsSub s pat`. -/
def containsSub (s pat : String) : Bool :=
  substrAux pat.data s.data

/-- Worker for `rustReplace`: scans left to right, replacing each
non-overlapping occurrence of `pat` and never re-scanning the inserted
`val` (Rust `str::replace` semantics). `fuel ≥ length of the input`
suffices because every step consumes at least one character. -/
def replaceGo (pat val : List Char) : Nat → List Char → List Char
  | _, [] => []
  | 0, s => s
  | fuel + 1, c :: cs =>
    if pat.isPrefixOf (c :: cs) then
      val ++ replaceGo pat val fuel (List.drop (pat.length - 1) cs)
    else
      c :: replaceGo pat val fuel cs

/-- Rust `s.replace(pat, val)` for a non-empty literal pattern (every call
site in the source passes a non-empty literal). -/
def rustReplace (s pat val : String) : String :=
  String.mk (if pat.data.isEmpty then s.data else replaceGo pat.data val.data s.data.length s.data)

/-! ## Path resolver (`expand_environment_variables`, src/main.rs:284-309) -/

/-- The fixed placeholder/variable table of `expand_environment_variables`,
in source order. -/
def winEnvVars : List (String × String) :=
  [("%USERPROFILE%", "USERPROFILE"),
   ("%APPDATA%", "APPDATA"),
   ("%LOCALAPPDATA%", "LOCALAPPDATA"),
   ("%TEMP%", "TEMP"),
   ("%TMP%", "TMP"),
   ("%PROGRAMFILES%", "PROGRAMFILES"),
   ("%PROGRAMFILES(X86)%", "PROGRAMFILES(X86)"),
   ("%SYSTEMDRIVE%", "SYSTEMDRIVE"),
   ("%WINDIR%", "WINDIR"),
   ("%PUBLIC%", "PUBLIC")]

/-- Model of `expand_environment_variables` from src/main.rs:284-309. `env` models
`std::env::var` (`none` = unset, replaced by `""` via `unwrap_or_default`).
The source returns the input unchanged when it contains no `%`, then
applies `str::replace` once per table row, in table order. -/
def expand_environment_variables (env : String → Option String) (path : String) : String :=
  if path.data.contains '%' then
    List.foldl (fun acc tv => rustReplace acc tv.1 ((env tv.2).getD "")) path winEnvVars
  else
    path

/-! ## Size formatter (`format_size`, src/main.rs:266-281) -/

/-- Unit table of `format_size`. -/
def sizeUnits : List String := ["B", "KB", "MB", "GB", "TB"]

/-- The `while size >= 1024.0 && unit_index < UNITS.len() - 1` loop of
`format_size`; the fuel argument is the number of unit promotions still
allowed (`UNITS.len() - 1 - unit_index`), so the loop is entered with
fuel `4` and index `0`. The division by 1024 is written in the
kernel-computable form `Rat.divInt size.num (1024 * size.den)`, which
equals `size / 1024` (`fsAux_step_div` below). -/
def fsAux : Nat → ℚ → Nat → ℚ × Nat
  | 0, size, idx => (size, idx)
  | fuel + 1, size, idx =>
    if 1024 ≤ size then fsAux fuel (Rat.divInt size.num (1024 * (size.den : ℤ))) (idx + 1)
    else (size, idx)

/-- The update performed by one iteration of the `fsAux` loop is exact
division by 1024. -/
lemma fsAux_step_div (q : ℚ) : Rat.divInt q.num (1024 * (q.den : ℤ)) = q / 1024 := by
  have hd : ((q.den : ℚ)) ≠ 0 := by
    exact_mod_cast q.den_nz
  have h3 : (q.num : ℚ) = q * q.den := by
    have h := Rat.num_div_den q
    rw [div_eq_iff hd] at h
    exact h
  rw [Rat.divInt_eq_div]
  push_cast
  rw [div_eq_div_iff (by positivity) (by norm_num : (1024 : ℚ) ≠ 0), h3]
  ring

/-- Round `10 * q` to the nearest integer, ties to even, for `q ≥ 0`,
computed on the exact numerator/denominator pair; this is the digit
value printed by the Rust float formatting with precision one, which
rounds the exact value with ties to even. -/
def rnd10 (q : ℚ) : ℤ :=
  let n : ℤ := 10 * q.num
  let d : ℤ := (q.den : ℤ)
  let f : ℤ := n / d
  let r2 : ℤ := 2 * (n - f * d)
  if r2 < d then f
  else if d < r2 then f + 1
  else if f % 2 = 0 then f else f + 1

/-- One-decimal fixed-point rendering of a nonnegative rational, as Rust
`format!("{:.1}", size)`. -/
def fmt1 (q : ℚ) : String :=
  let t := (rnd10 q).toNat
  toString (t / 10) ++ "." ++ toString (t % 10)

/-- Model of `format_size` from src/main.rs:266-281: repeated division by 1024
selects the unit; bytes are printed as an integer, larger units with one
decimal place. The `u64 → f64` conversion is exact for every value the
claims touch; it is modelled as the exact embedding `mkRat bytes 1`. -/
def format_size (bytes : Nat) : String :=
  let p := fsAux 4 (mkRat bytes 1) 0
  if p.2 = 0 then toString bytes ++ " B"
  else fmt1 p.1 ++ " " ++ sizeUnits.getD p.2 ""

/-! ## Rolling log (`log`, src/main.rs:17-41) -/

/-- The entry format of `log`: `format!("[{}] {}\n", timestamp, message)`. -/
def mkLogEntry (ts msg : String) : String :=
  "[" ++ ts ++ "] " ++ msg ++ "\n"

/-- The process-wide log state: the ring buffer `LOG_RING` (head = oldest)
and the contents of `wincleaner.log` after the last whole-buffer write. -/
structure LogState where
  ring : List String
  file : String
deriving DecidableEq

/-- One call to `log` (src/main.rs:21-41): pop the head if the buffer
already holds `MAX_LOGS = 100` entries, push the new timestamped entry at
the tail, then overwrite the log file with the concatenated buffer. -/
def logCall (st : LogState) (ts msg : String) : LogState :=
  let ring1 := if 100 ≤ st.ring.length then st.ring.drop 1 else st.ring
  let ring2 := ring1 ++ [mkLogEntry ts msg]
  { ring := ring2, file := String.join ring2 }

/-- The log state after a sequence of `log` calls (timestamp/message
pairs) starting from the empty buffer. -/
def logRun (calls : List (String × String)) : LogState :=
  calls.foldl (fun st c => logCall st c.1 c.2) { ring := [], file := "" }

/-! ## Task model (src/main.rs:158-216) -/

/-- Model of `CleanCategory` from src/main.rs:158-165. -/
inductive CleanCategory where
  | DevTools
  | AppCache
  | System
  | Custom
deriving DecidableEq

/-- Model of `CleanTask` from src/main.rs:167-178. -/
structure CleanTask where
  name : String
  description : String
  category : CleanCategory
  command : String
  path_check : Option String
  requires_confirmation : Bool
  dangerous : Bool
  estimated_size : Option String
  icon : Option String
deriving DecidableEq

/-- Model of `CleanupStats` from src/main.rs:200-207. -/
structure CleanupStats where
  total_tasks : Nat
  successful_tasks : Nat
  failed_tasks : Nat
  total_space_freed : Option Nat
  errors : List String
deriving DecidableEq

/-- Model of `AppState` from src/main.rs:209-216. -/
inductive AppState where
  | Idle
  | Running (msg : String)
  | Success
  | SuccessWithStats (stats : CleanupStats)
  | Error (msg : String)
deriving DecidableEq

/-! ## Executor (`run_clean_task_impl`, src/main.rs:1142-1272) -/

/-- Filesystem oracle for the pre-flight checks: `Path::exists`,
`Path::is_dir`, and `fs::read_dir(..).count()` (`none` models a
`read_dir` error, `some n` a successful listing with `n` entries). -/
structure Fs where
  pathExists : String → Bool
  isDir : String → Bool
  readDirCount : String → Option Nat

/-- Result of the `cmd /C <expanded>` subprocess, as seen by the
`match result` at src/main.rs:1220-1271: `output` is `Ok(output)` from
`cmd.output()` with the exit-status flag and captured stderr/stdout;
`ioError` is `Ok(Err(e))` (the process could not be created);
`joinError` is a failed `tokio::task::spawn_blocking` join. -/
inductive SpawnResult where
  | output (success : Bool) (stderrS stdoutS : String)
  | ioError (msg : String)
  | joinError (msg : String)

/-- Pre-flight failure message for an absent path (src/main.rs:1151). -/
def pathMissingMsg (ep : String) : String :=
  "清理路径不存在: " ++ ep ++ "\n无需清理，跳过此任务"

/-- Pre-flight failure message for an empty directory (src/main.rs:1161). -/
def alreadyEmptyMsg (ep : String) : String :=
  "目录为空: " ++ ep ++ "\n无需清理，跳过此任务"

/-- Safety-refusal message (src/main.rs:1185-1188). -/
def safetyMsg (p : String) : String :=
  "尝试清理系统保护目录: " ++ p ++ "\n出于安全考虑，此操作被拒绝"

/-- The protected-prefix list of the safety filter (src/main.rs:1177-1181). -/
def protectedPaths : List String :=
  ["C:\\Windows", "C:\\Program Files", "C:\\Program Files (x86)"]

/-- The pre-flight check of `run_clean_task_impl` (src/main.rs:1146-1169):
for a path-gated task, expand `path_check`; report the absent-path message
if the path does not exist, the empty-directory message if it is a
directory whose listing succeeds with zero entries; otherwise pass. -/
def preflight (fs : Fs) (env : String → Option String) (task : CleanTask) : Option String :=
  match task.path_check with
  | none => none
  | some pc =>
    let ep := expand_environment_variables env pc
    if fs.pathExists ep = false then some (pathMissingMsg ep)
    else if fs.isDir ep && (fs.readDirCount ep == some 0) then some (alreadyEmptyMsg ep)
    else none

/-- Classification of the subprocess result (src/main.rs:1220-1271),
matching stderr against the well-known Windows substrings. -/
def classify (r : SpawnResult) : Except String Unit :=
  match r with
  | .output true _ _ => .ok ()
  | .output false stderrS stdoutS =>
    .error
      (if containsSub stderrS "拒绝访问" then
        "权限不足: " ++ stderrS.trim ++ "\n请尝试以管理员身份运行程序"
      else if containsSub stderrS "找不到文件" then
        "文件或目录不存在: " ++ stderrS.trim ++ "\n可能已被其他程序清理"
      else if containsSub stderrS "正在使用" then
        "文件正在被使用: " ++ stderrS.trim ++ "\n请关闭相关程序后重试"
      else if stdoutS = "" then "执行失败: " ++ stderrS.trim
      else "执行失败: " ++ stderrS.trim ++ "\n详细信息: " ++ stdoutS.trim)
  | .ioError e =>
    .error
      (if containsSub e "找不到指定的文件" then "系统命令执行失败: 找不到指定的命令或程序"
      else if containsSub e "拒绝访问" then "系统命令执行失败: 权限不足，请以管理员身份运行"
      else "系统命令执行错误: " ++ e)
  | .joinError e => .error ("异步执行任务失败: " ++ e)

deriving instance DecidableEq for Except

/-- Outcome of one executor run: the returned `Result<(), String>` and
whether a subprocess was launched. -/
structure RunTrace where
  result : Except String Unit
  spawned : Bool
deriving DecidableEq

/-- The command phase of `run_clean_task_impl` (src/main.rs:1172-1271):
expand the command, veto it if it contains `rmdir` or `del` together with
a protected prefix and no `\Temp\` escape (taking the first matching
protected prefix for the message), otherwise hand the expanded command to
the subprocess and classify the outcome. -/
def commandPhase (env : String → Option String) (spawn : String → SpawnResult)
    (task : CleanTask) : RunTrace :=
  let ec := expand_environment_variables env task.command
  let vetoed :=
    if containsSub ec "rmdir" || containsSub ec "del" then
      protectedPaths.find? (fun p => containsSub ec p && !containsSub ec "\\Temp\\")
    else none
  match vetoed with
  | some p => { result := .error (safetyMsg p), spawned := false }
  | none => { result := classify (spawn ec), spawned := true }

/-- Model of `run_clean_task_impl` from src/main.rs:1142-1272: pre-flight first
(returning its message with no subprocess launched), then the command
phase. -/
def run_clean_task_impl (fs : Fs) (env : String → Option String)
    (spawn : String → SpawnResult) (task : CleanTask) : RunTrace :=
  match preflight fs env task with
  | some m => { result := .error m, spawned := false }
  | none => commandPhase env spawn task

/-! ## Batch orchestrator (the batch-clean closure in `app`,
src/main.rs:753-830)

The per-task executor outcome, the two directory measurements, and the
environment are time-dependent effects; they are abstracted as oracles
(`runO`, `sizeB`, `sizeA`, `env`), with `sizeB`/`sizeA` the values of
`get_directory_size` before and after the run. -/

/-- The accumulator of the batch loop (src/main.rs:768-773) together with
the sequence of progress fractions published by `progress.set` at
src/main.rs:787, modelled as exact rationals. -/
structure BatchState where
  completed : Nat
  successful : Nat
  failed : Nat
  freed : Nat
  errors : List String
  progressLog : List ℚ

/-- One iteration of the `for task_name in selected` loop
(src/main.rs:775-808): resolve the name in the catalog (doing nothing when
it is absent), measure before, run, bump `completed` and publish the
progress fraction, then on success bump `successful` and accumulate the
positive measured delta, and on failure bump `failed` and push
`"<name>: <message>"`. -/
def processOne (catalog : List CleanTask) (runO : CleanTask → Except String Unit)
    (sizeB sizeA : String → Option Nat) (env : String → Option String) (total : Nat)
    (st : BatchState) (nm : String) : BatchState :=
  match catalog.find? (fun t => t.name == nm) with
  | none => st
  | some task =>
    let before :=
      match task.path_check with
      | some pc => sizeB (expand_environment_variables env pc)
      | none => none
    let res := runO task
    let completed := st.completed + 1
    let progressLog := st.progressLog ++ [(completed : ℚ) / (total : ℚ)]
    match res with
    | .ok _ =>
      let freed :=
        match task.path_check with
        | some pc =>
          match before, sizeA (expand_environment_variables env pc) with
          | some b, some a => if a < b then st.freed + (b - a) else st.freed
          | _, _ => st.freed
        | none => st.freed
      { completed := completed, successful := st.successful + 1, failed := st.failed,
        freed := freed, errors := st.errors, progressLog := progressLog }
    | .error e =>
      { completed := completed, successful := st.successful, failed := st.failed + 1,
        freed := st.freed, errors := st.errors ++ [task.name ++ ": " ++ e],
        progressLog := progressLog }

/-- The batch run (src/main.rs:767-828): fold the loop over the selection,
assemble `CleanupStats` (omitting `total_space_freed` when the accumulated
total is zero), and publish `SuccessWithStats` when `failed_tasks > 0`,
`Success` otherwise. Returns the loop accumulator, the stats, and the
final published state. -/
def runBatch (catalog : List CleanTask) (runO : CleanTask → Except String Unit)
    (sizeB sizeA : String → Option Nat) (env : String → Option String)
    (selection : List String) : BatchState × CleanupStats × AppState :=
  let total := selection.length
  let st := selection.foldl (processOne catalog runO sizeB sizeA env total)
    { completed := 0, successful := 0, failed := 0, freed := 0, errors := [], progressLog := [] }
  let stats : CleanupStats :=
    { total_tasks := total, successful_tasks := st.successful, failed_tasks := st.failed,
      total_space_freed := if 0 < st.freed then some st.freed else none,
      errors := st.errors }
  (st, stats, if 0 < st.failed then AppState.SuccessWithStats stats else AppState.Success)

/-! ## Spec-side predicates used by the claims -/

/-- The safety-filter condition of the claims: the expanded command
contains `rmdir` or `del`, contains a protected prefix, and does not
contain `\Temp\`. -/
def safetyCond (ec : String) : Bool :=
  (containsSub ec "rmdir" || containsSub ec "del")
    && protectedPaths.any (fun p => containsSub ec p)
    && !containsSub ec "\\Temp\\"

/-- Whether a selected name resolves against the catalog
(`all_tasks.iter().find(|t| t.name == task_name)`). -/
def resolves (catalog : List CleanTask) (nm : String) : Bool :=
  (catalog.find? (fun t => t.name == nm)).isSome

/-- Number of selected names that resolve against the catalog. -/
def countResolved (catalog : List CleanTask) (sel : List String) : Nat :=
  (sel.filter (resolves catalog)).length

/-- The space contribution of a single resolved task in a batch run: the
positive measured delta, counted only for a path-gated task whose run
succeeded with both measurements known. -/
def taskDelta (runO : CleanTask → Except String Unit) (sizeB sizeA : String → Option Nat)
    (env : String → Option String) (task : CleanTask) : Nat :=
  match task.path_check with
  | none => 0
  | some pc =>
    match runO task with
    | .error _ => 0
    | .ok _ =>
      match sizeB (expand_environment_variables env pc),
          sizeA (expand_environment_variables env pc) with
      | some b, some a => if a < b then b - a else 0
      | _, _ => 0

/-- The space contribution of one selected name (zero when unresolved). -/
def selDelta (catalog : List CleanTask) (runO : CleanTask → Except String Unit)
    (sizeB sizeA : String → Option Nat) (env : String → Option String) (nm : String) : Nat :=
  match catalog.find? (fun t => t.name == nm) with
  | none => 0
  | some task => taskDelta runO sizeB sizeA env task

/-- A replacement whose pattern does not occur leaves the worker input
unchanged. -/
lemma replaceGo_no_occ (pat val : List Char) :
    ∀ (s : List Char) (fuel : Nat), substrAux pat s = false → replaceGo pat val fuel s = s := by
  intro s
  induction s with
  | nil =>
    intro fuel h
    cases fuel <;> rfl
  | cons c cs ih =>
    intro fuel h
    simp only [substrAux, Bool.or_eq_false_iff] at h
    cases fuel with
    | zero => rfl
    | succ f =>
      simp only [replaceGo, h.1, Bool.false_eq_true, if_false]
      rw [ih f h.2]

/-- Rust `s.replace(pat, val) = s` when `pat` does not occur in `s`. -/
lemma rustReplace_no_occ (s pat : String) (h : containsSub s pat = false) :
    ∀ val : String, rustReplace s pat val = s := by
  intro val
  unfold rustReplace
  split
  · rfl
  · rw [replaceGo_no_occ pat.data val.data s.data s.data.length h]

/-- Folding the substitution table over a string containing none of the
placeholder tokens leaves it unchanged. -/
lemma foldl_replace_no_occ (env : String → Option String) (l : List (String × String))
    (s : String) (h : ∀ tv ∈ l, containsSub s tv.1 = false) :
    List.foldl (fun acc tv => rustReplace acc tv.1 ((env tv.2).getD "")) s l = s := by
  induction l with
  | nil => rfl
  | cons tv rest ih =>
    simp only [List.foldl_cons]
    rw [rustReplace_no_occ s tv.1 (h tv (by simp))]
    exact ih (fun tv2 h2 => h tv2 (by simp [h2]))

/-- A string containing none of the ten placeholder tokens is returned
unchanged by `expand_environment_variables`, whatever the environment. -/
lemma expand_no_tokens (env : String → Option String) (s : String)
    (h : ∀ tv ∈ winEnvVars, containsSub s tv.1 = false) :
    expand_environment_variables env s = s := by
  unfold expand_environment_variables
  split
  · exact foldl_replace_no_occ env winEnvVars s h
  · rfl

/-- Evaluation of `expand_environment_variables` when exactly one unset
placeholder is involved: the table splits as `pre ++ (tok, v) :: post`
where no `pre` token occurs in the input, the `tok` replacement by the
empty string produces `out`, and no `post` token occurs in `out`. -/
lemma expand_single_unset (env : String → Option String)
    (pre post : List (String × String)) (tok v s out : String)
    (hsplit : winEnvVars = pre ++ (tok, v) :: post)
    (henv : env v = none)
    (hpre : ∀ tv ∈ pre, containsSub s tv.1 = false)
    (hstep : rustReplace s tok "" = out)
    (hpost : ∀ tv ∈ post, containsSub out tv.1 = false)
    (hpct : s.data.contains '%' = true) :
    expand_environment_variables env s = out := by
  unfold expand_environment_variables
  rw [if_pos hpct, hsplit, List.foldl_append, foldl_replace_no_occ env pre s hpre]
  simp only [List.foldl_cons, henv, Option.getD_none, hstep]
  exact foldl_replace_no_occ env post out hpost

/-! ## Claim C5 -/

/-- C5 counterexample: substitution in `expand_environment_variables` is
case-sensitive on the placeholder token. With every variable unset,
`%TEMP%\x` expands to `\x`, but `%temp%\x` — which the claim says is
replaced the same way — is returned verbatim, not `\x`. -/
theorem claim_C5_counterexample :
    expand_environment_variables (fun _ => none) "%TEMP%\\x" = "\\x"
      ∧ expand_environment_variables (fun _ => none) "%temp%\\x" = "%temp%\\x"
      ∧ expand_environment_variables (fun _ => none) "%temp%\\x" ≠ "\\x" := by
  exact ⟨by decide, by decide, by decide⟩

/-- C5 (amended): `expand_environment_variables` substitutes each of the
ten supported `%VAR%` placeholders case-sensitively — only the exact
uppercase token of the table is replaced, so `%temp%` and `%Temp%` are
left verbatim — and an unset variable is replaced by the empty string
rather than producing an error; in particular `expand("%TEMP%\x")` with
`TEMP` unset yields `"\x"`. -/
theorem claim_C5 :
    ∀ env : String → Option String,
      (env "TEMP" = none → expand_environment_variables env "%TEMP%\\x" = "\\x")
      ∧ expand_environment_variables env "%temp%\\x" = "%temp%\\x"
      ∧ expand_environment_variables env "%Temp%\\x" = "%Temp%\\x"
      ∧ (env "USERPROFILE" = none → expand_environment_variables env "%USERPROFILE%" = "")
      ∧ (env "APPDATA" = none → expand_environment_variables env "%APPDATA%" = "")
      ∧ (env "LOCALAPPDATA" = none → expand_environment_variables env "%LOCALAPPDATA%" = "")
      ∧ (env "TEMP" = none → expand_environment_variables env "%TEMP%" = "")
      ∧ (env "TMP" = none → expand_environment_variables env "%TMP%" = "")
      ∧ (env "PROGRAMFILES" = none → expand_environment_variables env "%PROGRAMFILES%" = "")
      ∧ (env "PROGRAMFILES(X86)" = none →
          expand_environment_variables env "%PROGRAMFILES(X86)%" = "")
      ∧ (env "SYSTEMDRIVE" = none → expand_environment_variables env "%SYSTEMDRIVE%" = "")
      ∧ (env "WINDIR" = none → expand_environment_variables env "%WINDIR%" = "")
      ∧ (env "PUBLIC" = none → expand_environment_variables env "%PUBLIC%" = "") := by
  intro env
  refine ⟨fun h => ?_, ?_, ?_, fun h => ?_, fun h => ?_, fun h => ?_, fun h => ?_,
    fun h => ?_, fun h => ?_, fun h => ?_, fun h => ?_, fun h => ?_, fun h => ?_⟩
  · exact expand_single_unset env (winEnvVars.take 3) (winEnvVars.drop 4) "%TEMP%" "TEMP"
      "%TEMP%\\x" "\\x" (by decide) h (by decide) (by decide) (by decide) (by decide)
  · exact expand_no_tokens env "%temp%\\x" (by decide)
  · exact expand_no_tokens env "%Temp%\\x" (by decide)
  · exact expand_single_unset env (winEnvVars.take 0) (winEnvVars.drop 1) "%USERPROFILE%"
      "USERPROFILE" "%USERPROFILE%" "" (by decide) h (by decide) (by decide) (by decide)
      (by decide)
  · exact expand_single_unset env (winEnvVars.take 1) (winEnvVars.drop 2) "%APPDATA%"
      "APPDATA" "%APPDATA%" "" (by decide) h (by decide) (by decide) (by decide) (by decide)
  · exact expand_single_unset env (winEnvVars.take 2) (winEnvVars.drop 3) "%LOCALAPPDATA%"
      "LOCALAPPDATA" "%LOCALAPPDATA%" "" (by decide) h (by decide) (by decide) (by decide)
      (by decide)
  · exact expand_single_unset env (winEnvVars.take 3) (winEnvVars.drop 4) "%TEMP%" "TEMP"
      "%TEMP%" "" (by decide) h (by decide) (by decide) (by decide) (by decide)
  · exact expand_single_unset env (winEnvVars.take 4) (winEnvVars.drop 5) "%TMP%" "TMP"
      "%TMP%" "" (by decide) h (by decide) (by decide) (by decide) (by decide)
  · exact expand_single_unset env (winEnvVars.take 5) (winEnvVars.drop 6) "%PROGRAMFILES%"
      "PROGRAMFILES" "%PROGRAMFILES%" "" (by decide) h (by decide) (by decide) (by decide)
      (by decide)
  · exact expand_single_unset env (winEnvVars.take 6) (winEnvVars.drop 7)
      "%PROGRAMFILES(X86)%" "PROGRAMFILES(X86)" "%PROGRAMFILES(X86)%" "" (by decide) h
      (by decide) (by decide) (by decide) (by decide)
  · exact expand_single_unset env (winEnvVars.take 7) (winEnvVars.drop 8) "%SYSTEMDRIVE%"
      "SYSTEMDRIVE" "%SYSTEMDRIVE%" "" (by decide) h (by decide) (by decide) (by decide)
      (by decide)
  · exact expand_single_unset env (winEnvVars.take 8) (winEnvVars.drop 9) "%WINDIR%"
      "WINDIR" "%WINDIR%" "" (by decide) h (by decide) (by decide) (by decide) (by decide)
  · exact expand_single_unset env (winEnvVars.take 9) (winEnvVars.drop 10) "%PUBLIC%"
      "PUBLIC" "%PUBLIC%" "" (by decide) h (by decide) (by decide) (by decide) (by decide)

/-- C5 witness: the amended claim evaluated with every variable unset. -/
theorem claim_C5_witness :
    expand_environment_variables (fun _ => none) "%TEMP%\\x" = "\\x"
      ∧ expand_environment_variables (fun _ => none) "%PUBLIC%" = "" :=
  ⟨(claim_C5 (fun _ => none)).1 rfl,
    (claim_C5 (fun _ => none)).2.2.2.2.2.2.2.2.2.2.2.2 rfl⟩

/-! ## Claim C6 -/

/-- Environment in which the value of `USERPROFILE` contains the `%TEMP%`
token and `TEMP` is set to `t`. -/
def envNestedLater : String → Option String := fun v =>
  if v = "USERPROFILE" then some "A%TEMP%B" else if v = "TEMP" then some "t" else none

/-- Environment in which the value of `TEMP` contains the `%USERPROFILE%`
token (whose variable comes earlier in the substitution order). -/
def envNestedEarlier : String → Option String := fun v =>
  if v = "USERPROFILE" then some "u" else if v = "TEMP" then some "A%USERPROFILE%B" else none

/-- Environment in which the value of `TEMP` contains the `%TEMP%` token
itself. -/
def envNestedSelf : String → Option String := fun v =>
  if v = "TEMP" then some "A%TEMP%B" else none

/-- C6 counterexample: expansion is not one-pass over the variable table.
A `%TEMP%` token appearing only inside the substituted value of
`USERPROFILE` is itself expanded (to `t`), not left verbatim as the claim
states. -/
theorem claim_C6_counterexample :
    expand_environment_variables envNestedLater "%USERPROFILE%" = "AtB"
      ∧ expand_environment_variables envNestedLater "%USERPROFILE%" ≠ "A%TEMP%B" := by
  exact ⟨by decide, by decide⟩

/-- C6 (amended): the ten replacements are applied sequentially in the
fixed table order, each single replacement never re-scanning its own
output. Hence a placeholder inside a substituted value is expanded when
its variable comes later in the order (`%TEMP%` inside the value of
`USERPROFILE`), and is left verbatim when its variable comes earlier
(`%USERPROFILE%` inside the value of `TEMP`) or is the same variable
(`%TEMP%` inside the value of `TEMP`). -/
theorem claim_C6 :
    expand_environment_variables envNestedLater "%USERPROFILE%" = "AtB"
      ∧ expand_environment_variables envNestedEarlier "%TEMP%" = "A%USERPROFILE%B"
      ∧ expand_environment_variables envNestedSelf "%TEMP%" = "A%TEMP%B" := by
  exact ⟨by decide, by decide, by decide⟩

/-! ## Claim C7 -/

/-- The unit index produced by the `format_size` loop stays between its
starting value and the starting value plus the remaining fuel. -/
lemma fsAux_idx_bounds :
    ∀ (fuel : Nat) (q : ℚ) (idx : Nat),
      idx ≤ (fsAux fuel q idx).2 ∧ (fsAux fuel q idx).2 ≤ idx + fuel := by
  intro fuel
  induction fuel with
  | zero =>
    intro q idx
    simp [fsAux]
  | succ f ih =>
    intro q idx
    simp only [fsAux]
    split
    · have h := ih (Rat.divInt q.num (1024 * (q.den : ℤ))) (idx + 1)
      exact ⟨Nat.le_trans (Nat.le_succ idx) h.1, by omega⟩
    · exact ⟨Nat.le_refl idx, by omega⟩

/-- The exact embedding of a byte count used by `format_size`. -/
lemma mkRat_nat_one (n : Nat) : mkRat (n : Int) 1 = (n : ℚ) := by
  rw [Rat.mkRat_eq_div]
  simp

/-- The `format_size` loop exits immediately when the value is below
1024. -/
lemma fsAux_stop (fuel : Nat) (q : ℚ) (idx : Nat) (h : ¬ 1024 ≤ q) :
    fsAux fuel q idx = (q, idx) := by
  cases fuel with
  | zero => rfl
  | succ f => simp [fsAux, h]

/-- First iteration of the `format_size` loop for a value of at least
1024. -/
lemma fsAux4_step (q : ℚ) (h : 1024 ≤ q) :
    fsAux 4 q 0 = fsAux 3 (Rat.divInt q.num (1024 * (q.den : ℤ))) 1 := by
  simp [fsAux, h]

/-- C7: `format_size` selects the unit among B, KB, MB, GB, TB by
repeated division by 1024, prints byte counts as a plain integer and all
other units with exactly one decimal digit, and takes the claimed values
on the literal inputs. -/
theorem claim_C7 :
    format_size 0 = "0 B" ∧ format_size 1023 = "1023 B" ∧ format_size 1024 = "1.0 KB"
      ∧ format_size 1536 = "1.5 KB" ∧ format_size 1099511627776 = "1.0 TB"
      ∧ (∀ n : Nat, n < 1024 → format_size n = toString n ++ " B")
      ∧ (∀ n : Nat, 1024 ≤ n → ∃ (a d k : Nat), d < 10 ∧ 1 ≤ k ∧ k ≤ 4
          ∧ format_size n = toString a ++ "." ++ toString d ++ " " ++ sizeUnits.getD k "") := by
  refine ⟨by decide, by decide, by decide, by decide, by decide, ?_, ?_⟩
  · intro n hn
    have hlt : ¬ (1024 ≤ mkRat (n : Int) 1) := by
      rw [mkRat_nat_one, not_le]
      exact_mod_cast hn
    simp only [format_size, fsAux_stop 4 (mkRat (n : Int) 1) 0 hlt]
    rfl
  · intro n hn
    have hge : 1024 ≤ mkRat (n : Int) 1 := by
      rw [mkRat_nat_one]
      exact_mod_cast hn
    have hstep := fsAux4_step (mkRat (n : Int) 1) hge
    have hb := fsAux_idx_bounds 3
      (Rat.divInt (mkRat (n : Int) 1).num (1024 * ((mkRat (n : Int) 1).den : ℤ))) 1
    have hne : (fsAux 4 (mkRat (n : Int) 1) 0).2 ≠ 0 := by
      rw [hstep]
      omega
    refine ⟨((rnd10 (fsAux 4 (mkRat (n : Int) 1) 0).1).toNat) / 10,
      ((rnd10 (fsAux 4 (mkRat (n : Int) 1) 0).1).toNat) % 10,
      (fsAux 4 (mkRat (n : Int) 1) 0).2, Nat.mod_lt _ (by norm_num), ?_, ?_, ?_⟩
    · rw [hstep]
      exact hb.1
    · rw [hstep]
      omega
    · simp only [format_size]
      rw [if_neg hne]
      simp only [fmt1]

/-- C7 witness: the integer-rendering conjunct evaluated at 512 bytes. -/
theorem claim_C7_witness : format_size 512 = toString 512 ++ " B" :=
  claim_C7.2.2.2.2.2.1 512 (by norm_num)

/-! ## Concrete fixtures for the executor claims -/

/-- Environment with every variable unset. -/
def envUnset : String → Option String := fun _ => none

/-- Subprocess oracle that always succeeds. -/
def spawnOk : String → SpawnResult := fun _ => .output true "" ""

/-- Filesystem in which no path exists. -/
def fsAbsent : Fs :=
  { pathExists := fun _ => false, isDir := fun _ => false, readDirCount := fun _ => none }

/-- Filesystem in which every path is an empty directory. -/
def fsEmptyDir : Fs :=
  { pathExists := fun _ => true, isDir := fun _ => true, readDirCount := fun _ => some 0 }

/-- Filesystem in which every path is a directory whose listing fails. -/
def fsListErr : Fs :=
  { pathExists := fun _ => true, isDir := fun _ => true, readDirCount := fun _ => none }

/-- Filesystem in which every path is a directory with three entries. -/
def fsFullDir : Fs :=
  { pathExists := fun _ => true, isDir := fun _ => true, readDirCount := fun _ => some 3 }

/-- A task record with the given name, command, and path gate. -/
def mkTask (nm cmd : String) (pc : Option String) : CleanTask :=
  { name := nm, description := "", category := CleanCategory.System, command := cmd,
    path_check := pc, requires_confirmation := false, dangerous := true,
    estimated_size := none, icon := none }

/-- The boundary-scenario task of the claims: a destructive command on a
protected path, with no path gate. -/
def taskSafety : CleanTask := mkTask "T" "rmdir /s /q C:\\Windows\\System32" none

/-- The same destructive command, but gated on a path. -/
def taskSafetyGated : CleanTask :=
  mkTask "T" "rmdir /s /q C:\\Windows\\System32" (some "C:\\Missing")

/-- The path-gated boundary-scenario task of the claims. -/
def taskGated : CleanTask := mkTask "T" "echo x" (some "%USERPROFILE%\\.nonexistent")

/-! ## Claim C1 -/

/-- C1 counterexample: a task whose expanded command satisfies all three
safety-filter conditions but whose `path_check` points at an absent path
is refused with the path-missing error, not a safety error, because the
pre-flight check runs before the safety filter. This falsifies the
claimed "exactly when" over every task. -/
theorem claim_C1_counterexample :
    safetyCond (expand_environment_variables envUnset taskSafetyGated.command) = true
      ∧ run_clean_task_impl fsAbsent envUnset spawnOk taskSafetyGated
          = { result := Except.error (pathMissingMsg "C:\\Missing"), spawned := false }
      ∧ ¬ ∃ p ∈ protectedPaths,
          (run_clean_task_impl fsAbsent envUnset spawnOk taskSafetyGated).result
            = Except.error (safetyMsg p) := by
  exact ⟨by decide, by decide, by decide⟩

/-- C1 (amended): for every task that reaches the safety filter — its
pre-flight passes, in particular every task without `path_check` — the
run refuses with a safety error and launches no subprocess exactly when
the expanded command contains `rmdir` or `del`, contains a protected
prefix, and does not contain `\Temp\`; and the boundary task `T` is
refused with the `C:\Windows` safety message before any subprocess is
spawned. -/
theorem claim_C1 :
    (∀ (fs : Fs) (env : String → Option String) (spawn : String → SpawnResult)
        (task : CleanTask), preflight fs env task = none →
      (((run_clean_task_impl fs env spawn task).spawned = false
          ∧ ∃ p ∈ protectedPaths,
              (run_clean_task_impl fs env spawn task).result = Except.error (safetyMsg p))
        ↔ safetyCond (expand_environment_variables env task.command) = true))
    ∧ run_clean_task_impl fsAbsent envUnset spawnOk taskSafety
        = { result := Except.error (safetyMsg "C:\\Windows"), spawned := false } := by
  constructor
  · intro fs env spawn task hpf
    simp only [run_clean_task_impl, hpf]
    unfold commandPhase
    simp only []
    by_cases hrd : (containsSub (expand_environment_variables env task.command) "rmdir"
        || containsSub (expand_environment_variables env task.command) "del") = true
    · rw [if_pos hrd]
      by_cases htemp : containsSub (expand_environment_variables env task.command) "\\Temp\\"
          = true
      · have hfind : protectedPaths.find?
            (fun p => containsSub (expand_environment_variables env task.command) p
              && !containsSub (expand_environment_variables env task.command) "\\Temp\\")
            = none := by
          rw [List.find?_eq_none]
          intro p _
          simp [htemp]
        rw [hfind]
        simp [safetyCond, htemp]
      · have htf : containsSub (expand_environment_variables env task.command) "\\Temp\\"
            = false := by
          simp at htemp
          exact htemp
        cases hfind : protectedPaths.find?
            (fun p => containsSub (expand_environment_variables env task.command) p
              && !containsSub (expand_environment_variables env task.command) "\\Temp\\") with
        | none =>
          have hnone : ∀ p ∈ protectedPaths,
              containsSub (expand_environment_variables env task.command) p = false := by
            intro p hp
            have h2 := List.find?_eq_none.mp hfind p hp
            simp [htf] at h2
            exact h2
          constructor
          · rintro ⟨hsp, _⟩
            simp at hsp
          · intro hsc
            exfalso
            unfold safetyCond at hsc
            simp [List.any_eq_true] at hsc
            obtain ⟨p, hp, hcp⟩ := hsc.1.2
            rw [hnone p hp] at hcp
            exact Bool.noConfusion hcp
        | some p =>
          have hpred := List.find?_some hfind
          have hmem := List.mem_of_find?_eq_some hfind
          rw [Bool.and_eq_true] at hpred
          constructor
          · intro _
            unfold safetyCond
            rw [hrd, htf]
            simp [List.any_eq_true]
            exact ⟨p, hmem, hpred.1⟩
          · intro _
            exact ⟨rfl, ⟨p, hmem, rfl⟩⟩
    · have hrdf : (containsSub (expand_environment_variables env task.command) "rmdir"
          || containsSub (expand_environment_variables env task.command) "del") = false := by
        simp only [Bool.not_eq_true] at hrd
        exact hrd
      rw [if_neg (by simp [hrdf])]
      constructor
      · rintro ⟨hsp, _⟩
        simp at hsp
      · intro hsc
        exfalso
        unfold safetyCond at hsc
        rw [hrdf] at hsc
        simp at hsc
  · decide

/-- C1 witness: the amended biconditional instantiated at the ungated
boundary task, whose pre-flight trivially passes. -/
theorem claim_C1_witness :
    ((run_clean_task_impl fsAbsent envUnset spawnOk taskSafety).spawned = false
        ∧ ∃ p ∈ protectedPaths,
            (run_clean_task_impl fsAbsent envUnset spawnOk taskSafety).result
              = Except.error (safetyMsg p))
      ↔ safetyCond (expand_environment_variables envUnset taskSafety.command) = true :=
  claim_C1.1 fsAbsent envUnset spawnOk taskSafety rfl

/-! ## Claim C2 -/

/-- C2: for a path-gated task, the run fails with the path-missing
message (no subprocess) when the expanded path does not exist, fails
with the empty-directory message (no subprocess) when it is a directory
whose listing succeeds with zero entries, and otherwise proceeds to the
command phase; and the boundary task gated on
`%USERPROFILE%\.nonexistent` with the path absent fails with the
path-missing message without spawning. -/
theorem claim_C2 :
    (∀ (fs : Fs) (env : String → Option String) (spawn : String → SpawnResult)
        (task : CleanTask) (pc : String), task.path_check = some pc →
      run_clean_task_impl fs env spawn task =
        (if fs.pathExists (expand_environment_variables env pc) = false then
          { result := Except.error (pathMissingMsg (expand_environment_variables env pc)),
            spawned := false }
        else if fs.isDir (expand_environment_variables env pc)
            && (fs.readDirCount (expand_environment_variables env pc) == some 0) then
          { result := Except.error (alreadyEmptyMsg (expand_environment_variables env pc)),
            spawned := false }
        else commandPhase env spawn task))
    ∧ run_clean_task_impl fsAbsent envUnset spawnOk taskGated
        = { result := Except.error (pathMissingMsg "\\.nonexistent"), spawned := false } := by
  constructor
  · intro fs env spawn task pc htask
    by_cases h1 : fs.pathExists (expand_environment_variables env pc) = false
    · simp [run_clean_task_impl, preflight, htask, h1]
    · by_cases h2 : (fs.isDir (expand_environment_variables env pc)
          && (fs.readDirCount (expand_environment_variables env pc) == some 0)) = true
      · simp [run_clean_task_impl, preflight, htask, h1, h2]
      · simp [run_clean_task_impl, preflight, htask, h1, h2]
  · decide

/-- C2 witness: the pre-flight equation instantiated at an empty
directory, where it reduces to the empty-directory failure with no
subprocess. -/
theorem claim_C2_witness :
    run_clean_task_impl fsEmptyDir envUnset spawnOk taskGated
      = { result := Except.error (alreadyEmptyMsg "\\.nonexistent"), spawned := false } :=
  claim_C2.1 fsEmptyDir envUnset spawnOk taskGated "%USERPROFILE%\\.nonexistent" rfl

/-! ## Claim C9 -/

/-- C9: when the expanded gate path exists and is a directory but the
listing fails (`read_dir` returns an error), the emptiness check is
silently skipped: pre-flight passes and the run proceeds to the command
phase; and given an existing directory, pre-flight aborts with the
empty-directory message exactly when the listing succeeds with zero
entries. -/
theorem claim_C9 :
    ∀ (fs : Fs) (env : String → Option String) (spawn : String → SpawnResult)
      (task : CleanTask) (pc : String), task.path_check = some pc →
      fs.pathExists (expand_environment_variables env pc) = true →
      fs.isDir (expand_environment_variables env pc) = true →
      (fs.readDirCount (expand_environment_variables env pc) = none →
        preflight fs env task = none
          ∧ run_clean_task_impl fs env spawn task = commandPhase env spawn task)
      ∧ (preflight fs env task
          = some (alreadyEmptyMsg (expand_environment_variables env pc))
        ↔ fs.readDirCount (expand_environment_variables env pc) = some 0) := by
  intro fs env spawn task pc htask hex hdir
  constructor
  · intro hrd
    have hpf : preflight fs env task = none := by
      simp [preflight, htask, hex, hdir, hrd]
    exact ⟨hpf, by simp [run_clean_task_impl, hpf]⟩
  · constructor
    · intro hpf
      by_cases hrd : fs.readDirCount (expand_environment_variables env pc) = some 0
      · exact hrd
      · exfalso
        simp [preflight, htask, hex, hdir, hrd] at hpf
    · intro hrd
      simp [preflight, htask, hex, hdir, hrd]

/-- C9 witness: the read-error behaviour evaluated on a concrete
filesystem whose listings fail. -/
theorem claim_C9_witness :
    preflight fsListErr envUnset taskGated = none
      ∧ run_clean_task_impl fsListErr envUnset spawnOk taskGated
        = commandPhase envUnset spawnOk taskGated :=
  (claim_C9 fsListErr envUnset spawnOk taskGated "%USERPROFILE%\\.nonexistent"
    rfl rfl rfl).1 rfl

/-! ## Claim C8 -/

/-- For a buffer within capacity, one `log` call acts as appending the
new entry and keeping the most recent entries that fit. -/
lemma logCall_ring (st : LogState) (ts msg : String) (h : st.ring.length ≤ 100) :
    (logCall st ts msg).ring
      = (st.ring ++ [mkLogEntry ts msg]).drop (st.ring.length + 1 - 100) := by
  unfold logCall
  rcases Nat.lt_or_ge st.ring.length 100 with hlt | hge
  · rw [if_neg (by omega)]
    have h0 : st.ring.length + 1 - 100 = 0 := by omega
    rw [h0, List.drop_zero]
  · rw [if_pos (by omega)]
    have h1 : st.ring.length + 1 - 100 = 1 := by omega
    rw [h1, List.drop_append_of_le_length (by omega)]

/-- Folding `log` calls over a within-capacity buffer keeps the most
recent 100 entries of the concatenated history. -/
lemma logFold_ring (calls : List (String × String)) :
    ∀ st : LogState, st.ring.length ≤ 100 →
      (calls.foldl (fun s c => logCall s c.1 c.2) st).ring
        = (st.ring ++ calls.map (fun c => mkLogEntry c.1 c.2)).drop
            (st.ring.length + calls.length - 100) := by
  induction calls with
  | nil =>
    intro st h
    simp only [List.foldl_nil, List.map_nil, List.append_nil, List.length_nil, Nat.add_zero]
    rw [Nat.sub_eq_zero_of_le h, List.drop_zero]
  | cons c cs ih =>
    intro st h
    simp only [List.foldl_cons, List.map_cons, List.length_cons]
    have hstep := logCall_ring st c.1 c.2 h
    have hk : st.ring.length + 1 - 100 ≤ (st.ring ++ [mkLogEntry c.1 c.2]).length := by
      rw [List.length_append]
      simp
      omega
    have hlen : (logCall st c.1 c.2).ring.length ≤ 100 := by
      rw [hstep, List.length_drop, List.length_append]
      simp
      omega
    rw [ih (logCall st c.1 c.2) hlen, hstep,
      ← List.drop_append_of_le_length hk, List.drop_drop]
    congr 1
    · rw [List.length_drop, List.length_append]
      simp
      omega
    · rw [List.append_assoc, List.singleton_append]

/-- After at least one call, the log file holds exactly the concatenated
buffer. -/
lemma logFold_file (calls : List (String × String)) :
    ∀ st : LogState, calls ≠ [] →
      (calls.foldl (fun s c => logCall s c.1 c.2) st).file
        = String.join (calls.foldl (fun s c => logCall s c.1 c.2) st).ring := by
  induction calls with
  | nil =>
    intro st h
    exact absurd rfl h
  | cons c cs ih =>
    intro st _
    simp only [List.foldl_cons]
    rcases eq_or_ne cs [] with hcs | hcs
    · subst hcs
      simp only [List.foldl_nil]
      rfl
    · exact ih (logCall st c.1 c.2) hcs

/-- C8: the rolling log is a bounded FIFO of capacity 100 — each call
appends one timestamped entry at the tail, evicting the oldest entry
when the buffer already holds 100, and mirrors the whole buffer to the
file in one overwriting write; after any `N ≥ 100` calls the buffer
holds exactly 100 entries, namely the most recent 100, and the file is
their concatenation. -/
theorem claim_C8 (calls : List (String × String)) (h : 100 ≤ calls.length) :
    (logRun calls).ring.length = 100
      ∧ (logRun calls).ring
          = (calls.map (fun c => mkLogEntry c.1 c.2)).drop (calls.length - 100)
      ∧ (logRun calls).file = String.join (logRun calls).ring := by
  have hfold := logFold_ring calls { ring := [], file := "" } (by simp)
  simp only [List.length_nil, List.nil_append, Nat.zero_add] at hfold
  have hring : (logRun calls).ring
      = (calls.map (fun c => mkLogEntry c.1 c.2)).drop (calls.length - 100) := hfold
  refine ⟨?_, hring, ?_⟩
  · rw [hring, List.length_drop, List.length_map]
    omega
  · have hne : calls ≠ [] := by
      intro hnil
      rw [hnil] at h
      simp at h
    exact logFold_file calls { ring := [], file := "" } hne

/-- C8 witness: one hundred identical calls leave exactly one hundred
buffer lines mirrored to the file. -/
theorem claim_C8_witness :
    (logRun (List.replicate 100 ("t", "m"))).ring.length = 100
      ∧ (logRun (List.replicate 100 ("t", "m"))).ring
          = ((List.replicate 100 ("t", "m")).map (fun c => mkLogEntry c.1 c.2)).drop
              ((List.replicate 100 ("t", "m")).length - 100)
      ∧ (logRun (List.replicate 100 ("t", "m"))).file
          = String.join (logRun (List.replicate 100 ("t", "m"))).ring :=
  claim_C8 (List.replicate 100 ("t", "m")) (by simp)

/-! ## Supporting lemmas about the batch loop -/

/-- A selected name absent from the catalog leaves the loop accumulator
untouched. -/
lemma processOne_unresolved (catalog : List CleanTask) (runO : CleanTask → Except String Unit)
    (sizeB sizeA : String → Option Nat) (env : String → Option String) (total : Nat)
    (st : BatchState) (nm : String)
    (hfind : catalog.find? (fun t => t.name == nm) = none) :
    processOne catalog runO sizeB sizeA env total st nm = st := by
  simp [processOne, hfind]

/-- Explicit form of one loop iteration for a resolved name: both
outcomes bump `completed` and publish one progress fraction; success
additionally bumps `successful` and adds the measured delta of the task,
failure bumps `failed` and appends the error line. -/
lemma processOne_resolved (catalog : List CleanTask) (runO : CleanTask → Except String Unit)
    (sizeB sizeA : String → Option Nat) (env : String → Option String) (total : Nat)
    (st : BatchState) (nm : String) (t : CleanTask)
    (hfind : catalog.find? (fun x => x.name == nm) = some t) :
    processOne catalog runO sizeB sizeA env total st nm =
      match runO t with
      | .ok _ =>
        { completed := st.completed + 1, successful := st.successful + 1,
          failed := st.failed, freed := st.freed + taskDelta runO sizeB sizeA env t,
          errors := st.errors,
          progressLog := st.progressLog ++ [((st.completed + 1 : Nat) : ℚ) / (total : ℚ)] }
      | .error e =>
        { completed := st.completed + 1, successful := st.successful,
          failed := st.failed + 1, freed := st.freed,
          errors := st.errors ++ [t.name ++ ": " ++ e],
          progressLog := st.progressLog ++ [((st.completed + 1 : Nat) : ℚ) / (total : ℚ)] } := by
  simp only [processOne, hfind]
  cases hrun : runO t with
  | error e => rfl
  | ok u =>
    cases hpc : t.path_check with
    | none => simp [taskDelta, hrun, hpc]
    | some pc =>
      cases hB : sizeB (expand_environment_variables env pc) with
      | none => simp [taskDelta, hrun, hpc, hB]
      | some b =>
        cases hA : sizeA (expand_environment_variables env pc) with
        | none => simp [taskDelta, hrun, hpc, hB, hA]
        | some a =>
          simp only [taskDelta, hrun, hpc, hB, hA]
          split_ifs with hab <;> simp [hab]

/-- Value of `countResolved` over a cons cell whose head resolves. -/
lemma countResolved_cons_t (catalog : List CleanTask) (nm : String) (rest : List String)
    (h : resolves catalog nm = true) :
    countResolved catalog (nm :: rest) = countResolved catalog rest + 1 := by
  simp [countResolved, List.filter_cons, h]

/-- Value of `countResolved` over a cons cell whose head does not resolve. -/
lemma countResolved_cons_f (catalog : List CleanTask) (nm : String) (rest : List String)
    (h : resolves catalog nm = false) :
    countResolved catalog (nm :: rest) = countResolved catalog rest := by
  simp [countResolved, List.filter_cons, h]

/-- Counting and accumulation facts about the whole batch loop: the
completed count and the sum `successful + failed` both advance by the
number of resolved names, one error line is recorded per failure, and the
freed accumulator collects exactly the per-name deltas. -/
lemma batchFold_main (catalog : List CleanTask) (runO : CleanTask → Except String Unit)
    (sizeB sizeA : String → Option Nat) (env : String → Option String) (total : Nat)
    (sel : List String) :
    ∀ st : BatchState,
      (sel.foldl (processOne catalog runO sizeB sizeA env total) st).completed
          = st.completed + countResolved catalog sel
      ∧ (sel.foldl (processOne catalog runO sizeB sizeA env total) st).successful
            + (sel.foldl (processOne catalog runO sizeB sizeA env total) st).failed
          = st.successful + st.failed + countResolved catalog sel
      ∧ (sel.foldl (processOne catalog runO sizeB sizeA env total) st).errors.length
            + st.failed
          = st.errors.length
              + (sel.foldl (processOne catalog runO sizeB sizeA env total) st).failed
      ∧ (sel.foldl (processOne catalog runO sizeB sizeA env total) st).freed
          = st.freed + (sel.map (selDelta catalog runO sizeB sizeA env)).sum := by
  induction sel with
  | nil =>
    intro st
    simp [countResolved]
  | cons nm rest ih =>
    intro st
    simp only [List.foldl_cons, List.map_cons, List.sum_cons]
    cases hfind : catalog.find? (fun t => t.name == nm) with
    | none =>
      have hres : resolves catalog nm = false := by simp [resolves, hfind]
      have hsel : selDelta catalog runO sizeB sizeA env nm = 0 := by simp [selDelta, hfind]
      rw [processOne_unresolved catalog runO sizeB sizeA env total st nm hfind, hsel,
        countResolved_cons_f catalog nm rest hres]
      obtain ⟨i1, i2, i3, i4⟩ := ih st
      exact ⟨by omega, by omega, by omega, by omega⟩
    | some t =>
      have hres : resolves catalog nm = true := by simp [resolves, hfind]
      have hsel : selDelta catalog runO sizeB sizeA env nm
          = taskDelta runO sizeB sizeA env t := by simp [selDelta, hfind]
      rw [hsel, countResolved_cons_t catalog nm rest hres]
      obtain ⟨i1, i2, i3, i4⟩ :=
        ih (processOne catalog runO sizeB sizeA env total st nm)
      have hstep := processOne_resolved catalog runO sizeB sizeA env total st nm t hfind
      have hc : (processOne catalog runO sizeB sizeA env total st nm).completed
          = st.completed + 1 := by
        rw [hstep]
        cases runO t <;> rfl
      have hsf : (processOne catalog runO sizeB sizeA env total st nm).successful
            + (processOne catalog runO sizeB sizeA env total st nm).failed
          = st.successful + st.failed + 1 := by
        rw [hstep]
        cases runO t with
        | ok u =>
          simp
          omega
        | error e =>
          simp
          omega
      have herr : (processOne catalog runO sizeB sizeA env total st nm).errors.length
            + st.failed
          = st.errors.length
              + (processOne catalog runO sizeB sizeA env total st nm).failed := by
        rw [hstep]
        cases runO t with
        | ok u => simp
        | error e =>
          simp
          omega
      have hfr : (processOne catalog runO sizeB sizeA env total st nm).freed
          = st.freed + taskDelta runO sizeB sizeA env t := by
        rw [hstep]
        cases hrun : runO t with
        | ok u => rfl
        | error e =>
          cases hpc : t.path_check <;> simp [taskDelta, hrun, hpc]
      exact ⟨by omega, by omega, by omega, by omega⟩

/-- Three-task catalog for the boundary batch scenario. -/
def catalogThree : List CleanTask :=
  [mkTask "t1" "echo 1" none, mkTask "t2" "echo 2" none, mkTask "t3" "echo 3" none]

/-- Executor oracle under which exactly the middle task fails. -/
def runMidFails : CleanTask → Except String Unit :=
  fun t => if t.name = "t2" then Except.error "访问被拒" else Except.ok ()

/-- Directory-size oracle with no known measurements. -/
def sizeUnknown : String → Option Nat := fun _ => none

/-- C3: the batch loop processes every selected task regardless of
individual failures — the completed count and `successful + failed` both
equal the number of resolved names, whatever the outcomes — and the
final published state is `SuccessWithStats(stats)` when `failed > 0` and
`Success` otherwise; on the three-task batch whose middle task fails,
the stats are `{3, 2, 1, none, ["t2: <msg>"]}` and the final state is
`SuccessWithStats`. -/
theorem claim_C3 :
    (∀ (catalog : List CleanTask) (runO : CleanTask → Except String Unit)
        (sizeB sizeA : String → Option Nat) (env : String → Option String)
        (selection : List String),
      (runBatch catalog runO sizeB sizeA env selection).1.completed
          = countResolved catalog selection
      ∧ (runBatch catalog runO sizeB sizeA env selection).1.successful
            + (runBatch catalog runO sizeB sizeA env selection).1.failed
          = countResolved catalog selection
      ∧ (runBatch catalog runO sizeB sizeA env selection).2.1.total_tasks = selection.length
      ∧ (runBatch catalog runO sizeB sizeA env selection).2.2
          = (if 0 < (runBatch catalog runO sizeB sizeA env selection).2.1.failed_tasks then
              AppState.SuccessWithStats (runBatch catalog runO sizeB sizeA env selection).2.1
            else AppState.Success))
    ∧ (runBatch catalogThree runMidFails sizeUnknown sizeUnknown envUnset
          ["t1", "t2", "t3"]).2.1
        = { total_tasks := 3, successful_tasks := 2, failed_tasks := 1,
            total_space_freed := none, errors := ["t2: 访问被拒"] }
    ∧ (runBatch catalogThree runMidFails sizeUnknown sizeUnknown envUnset
          ["t1", "t2", "t3"]).2.2
        = AppState.SuccessWithStats
            { total_tasks := 3, successful_tasks := 2, failed_tasks := 1,
              total_space_freed := none, errors := ["t2: 访问被拒"] } := by
  refine ⟨?_, by decide, by decide⟩
  intro catalog runO sizeB sizeA env selection
  obtain ⟨i1, i2, i3, i4⟩ :=
    batchFold_main catalog runO sizeB sizeA env selection.length selection
      { completed := 0, successful := 0, failed := 0, freed := 0, errors := [],
        progressLog := [] }
  exact ⟨by simpa [runBatch] using i1, by simpa [runBatch] using i2, rfl, rfl⟩

/-- C4: across a batch run the freed accumulator is exactly the sum of
the per-name deltas — a task contributes only when it is path-gated, its
run succeeded, both measurements are known, and before exceeds after, in
which case it contributes `before - after` (see `taskDelta`) — and
`total_space_freed` is `none` exactly when that accumulated total is
zero. -/
theorem claim_C4 :
    ∀ (catalog : List CleanTask) (runO : CleanTask → Except String Unit)
      (sizeB sizeA : String → Option Nat) (env : String → Option String)
      (selection : List String),
      (runBatch catalog runO sizeB sizeA env selection).1.freed
          = (selection.map (selDelta catalog runO sizeB sizeA env)).sum
      ∧ (runBatch catalog runO sizeB sizeA env selection).2.1.total_space_freed
          = (if 0 < (runBatch catalog runO sizeB sizeA env selection).1.freed then
              some ((runBatch catalog runO sizeB sizeA env selection).1.freed) else none)
      ∧ ((runBatch catalog runO sizeB sizeA env selection).2.1.total_space_freed = none
          ↔ (runBatch catalog runO sizeB sizeA env selection).1.freed = 0) := by
  intro catalog runO sizeB sizeA env selection
  obtain ⟨i1, i2, i3, i4⟩ :=
    batchFold_main catalog runO sizeB sizeA env selection.length selection
      { completed := 0, successful := 0, failed := 0, freed := 0, errors := [],
        progressLog := [] }
  refine ⟨by simpa [runBatch] using i4, rfl, ?_⟩
  have hts : (runBatch catalog runO sizeB sizeA env selection).2.1.total_space_freed
      = (if 0 < (runBatch catalog runO sizeB sizeA env selection).1.freed then
          some ((runBatch catalog runO sizeB sizeA env selection).1.freed) else none) := rfl
  rw [hts]
  split_ifs with h
  · simp
    omega
  · simp
    omega

